import Mathlib

/-!
Shallow embedding of the rustaid capture pipeline
(source: src/src-tauri/src/lib.rs).

The embedding models:
  - the target resolver `get_rust_target` over an explicit list of
    enumerated targets;
  - the shared application state `AppState` (window label, latest frame);
  - the query commands `get_window` and `get_frame`;
  - the BGRA-to-RGB pixel conversion loop of `frame_to_base64`
    (`for chunk in bgra_data.chunks_exact(4) { push chunk[0..3] }`);
  - the unpadded standard-alphabet base64 encoder and its decoder
    (the base64 crate engine built from `alphabet::STANDARD` with
    `NO_PAD`), with bytes as natural numbers below 256;
  - `frame_to_base64` itself, returning `none` where the Rust code
    panics (the `.unwrap()` on `RgbImage::from_raw`);
  - the nested capture loops: the inner per-session loop of
    `rust_capture` and the outer resolution loop of `startup`,
    interpreted over oracle scripts of frame results and ticks,
    producing an event trace and a final state.

External library behaviour that the claims depend on is modelled from
its documented contract and flagged in the doc comment of the
corresponding definition.
-/

namespace Rustaid

/-- Window metadata carried by a scap window target; only the title is
inspected by this program. -/
structure WindowInfo where
  title : String
deriving DecidableEq

/-- A scap capture target: a window, or some other surface kind
(display etc.). -/
inductive Target where
  | window (w : WindowInfo)
  | display (id : Nat)
deriving DecidableEq

/-- The predicate inlined in `get_rust_target`:
`matches!(target, Target::Window(window) if window.title == "Rust")`. -/
def isRustWindow : Target → Bool
  | .window w => w.title == "Rust"
  | _ => false

/-- `get_rust_target`: first enumerated target that is a window titled
"Rust". The enumeration `get_all_targets()` is passed explicitly. -/
def get_rust_target (targets : List Target) : Option Target :=
  targets.find? isRustWindow

/-- `AppState`: the shared state managed by tauri. `window` is the
tracked window label, `lastFrame` the stored base64 frame (a string,
modelled as a list of characters). -/
structure AppState where
  window : String
  lastFrame : Option (List Char)
deriving DecidableEq

/-- `AppState::default()`: empty label, no frame. -/
def initialState : AppState := { window := "", lastFrame := none }

deriving instance DecidableEq for Except

/-- The `get_window` tauri command: `Ok(window.clone())`. -/
def get_window (s : AppState) : Except String String :=
  Except.ok s.window

/-- The `get_frame` tauri command: the stored frame, or the error
string used by the source. -/
def get_frame (s : AppState) : Except String (List Char) :=
  match s.lastFrame with
  | some data => Except.ok data
  | none => Except.error "No frame captured yet"

/-- The conversion loop of `frame_to_base64`: for each complete 4-byte
chunk of the source, keep the first three bytes and drop the fourth
(`chunks_exact(4)` ignores a trailing partial chunk). -/
def bgraToRgb : List Nat → List Nat
  | c0 :: c1 :: c2 :: _ :: rest => c0 :: c1 :: c2 :: bgraToRgb rest
  | _ => []

/-- The pixel conversion step on the reusable buffer: `buffer.clear()`
discards the prior contents, then the chunk loop fills it, so the
result ignores the previous contents of `buffer`. -/
def convert (_buffer : List Nat) (bgra_data : List Nat) : List Nat :=
  bgraToRgb bgra_data

/-- `alphabet::STANDARD` of the base64 crate. -/
def b64Alphabet : List Char :=
  "ABCDEFGHIJKLMNOPQRSTUVWXYZabcdefghijklmnopqrstuvwxyz0123456789+/".toList

/-- Symbol for a 6-bit value. -/
def b64Char (n : Nat) : Char := b64Alphabet.getD n 'A'

/-- Index of a symbol in the alphabet, `none` for a foreign character. -/
def b64Index (c : Char) : Option Nat := b64Alphabet.findIdx? (· == c)

/-- Unpadded standard base64 of a byte list (the engine configured in
`rust_capture`: `alphabet::STANDARD`, `NO_PAD`): 3-byte groups become
4 symbols, a trailing 2-byte group 3 symbols, a trailing byte 2
symbols, with no padding characters. -/
def base64Encode : List Nat → List Char
  | b0 :: b1 :: b2 :: rest =>
    b64Char (b0 / 4) :: b64Char (b0 % 4 * 16 + b1 / 16) ::
      b64Char (b1 % 16 * 4 + b2 / 64) :: b64Char (b2 % 64) :: base64Encode rest
  | [b0, b1] =>
    [b64Char (b0 / 4), b64Char (b0 % 4 * 16 + b1 / 16), b64Char (b1 % 16 * 4)]
  | [b0] => [b64Char (b0 / 4), b64Char (b0 % 4 * 16)]
  | [] => []

/-- Unpadded standard base64 decoding, the inverse direction of the
same engine: 4-symbol groups yield 3 bytes, a trailing 3-symbol group
2 bytes, a trailing 2-symbol group 1 byte; a lone trailing symbol or a
foreign character is an error. -/
def base64Decode : List Char → Option (List Nat)
  | [] => some []
  | [_] => none
  | [c0, c1] => do
    let i0 ← b64Index c0
    let i1 ← b64Index c1
    pure [i0 * 4 + i1 / 16]
  | [c0, c1, c2] => do
    let i0 ← b64Index c0
    let i1 ← b64Index c1
    let i2 ← b64Index c2
    pure [i0 * 4 + i1 / 16, i1 % 16 * 16 + i2 / 4]
  | c0 :: c1 :: c2 :: c3 :: rest => do
    let i0 ← b64Index c0
    let i1 ← b64Index c1
    let i2 ← b64Index c2
    let i3 ← b64Index c3
    let tail ← base64Decode rest
    pure ((i0 * 4 + i1 / 16) :: (i1 % 16 * 16 + i2 / 4) :: (i2 % 4 * 64 + i3) :: tail)

/-- PNG serialization performed by the image crate
(`DynamicImage::write_to(..., ImageFormat::Png)`). The claims only use
that it is a total, deterministic, lossless serialization of the
dimensions and pixel bytes, per the spec (a standard lossless
compressed image format); it is modelled as a plain injective
serialization. Writing to an in-memory cursor cannot fail, so the
`.expect` on `write_to` never fires for a well-formed image. -/
def pngBytes (width height : Nat) (pixels : List Nat) : List Nat :=
  width :: height :: pixels

/-- `RgbImage::from_raw width height buf`, modelled from the image
crate contract: returns `none` exactly when the container holds fewer
than `width * height * 3` bytes (`check_image_fits`); a larger
container is accepted and only the first `width * height * 3` bytes
form the image. -/
def rgbImageFromRaw (width height : Nat) (pixels : List Nat) : Option (List Nat) :=
  if width * height * 3 ≤ pixels.length then
    some (pixels.take (width * height * 3))
  else
    none

/-- `frame_to_base64`: clear and refill the reusable buffer from the
BGRA data, wrap it as an RGB image, serialize to PNG bytes and base64
them. Returns `none` where the source panics: the `.unwrap()` on
`RgbImage::from_raw` when the converted buffer is too small for the
stated dimensions. -/
def frame_to_base64 (buffer : List Nat) (bgra_data : List Nat)
    (width height : Nat) : Option (List Char) :=
  match rgbImageFromRaw width height (convert buffer bgra_data) with
  | some pix => some (base64Encode (pngBytes width height pix))
  | none => none

/-- A captured frame: the BGRA variant carries the raw bytes and the
dimensions; every other scap frame variant is collapsed into `other`
(the source only destructures `Frame::BGRA`). -/
inductive Frame where
  | BGRA (data : List Nat) (width height : Nat)
  | other
deriving DecidableEq

/-- Oracle outcome of one `get_next_frame()` call. -/
inductive FrameResult where
  | ok (f : Frame)
  | err
deriving DecidableEq

/-- Observable events of a run of the capture loops. Session ids `sid`
number the `Capturer::build` calls, so two events with the same id use
the same session object. -/
inductive Ev where
  | resolve (found : Bool)
  | buildSession (sid : Nat)
  | buildPanic (sid : Nat)
  | start (sid : Nat)
  | frameOk (sid : Nat)
  | frameErr (sid : Nat)
  | stop (sid : Nat)
  | publish (data : List Char)
  | encodePanic
  | sleep
deriving DecidableEq

/-- The body of the spawned encode task for one successful frame: a
BGRA frame is encoded and, on success, stored; the `.unwrap()` panic
on a short buffer kills only the spawned task, leaving the state
unchanged (event `encodePanic`); a non-BGRA frame is silently
dropped. -/
def handleFrame (f : Frame) (s : AppState) : List Ev × AppState :=
  match f with
  | .BGRA data w h =>
    match frame_to_base64 [] data w h with
    | some img => ([.publish img], { s with lastFrame := some img })
    | none => ([.encodePanic], s)
  | .other => ([], s)

/-- The inner loop of `rust_capture` over a session `sid`, interpreted
on a script of frame results: each cycle starts the capture, fetches a
frame and, on success, dispatches the encode task, stops the capture
and sleeps; on a frame error the session is stopped inside the error
arm and the loop breaks (the trailing stop and sleep are skipped). An
exhausted script truncates the run. -/
def rust_capture (sid : Nat) (s : AppState) :
    List FrameResult → List Ev × AppState
  | [] => ([], s)
  | .ok f :: rest =>
    let p := handleFrame f s
    let t := rust_capture sid p.2 rest
    (.start sid :: .frameOk sid :: p.1 ++ .stop sid :: .sleep :: t.1, t.2)
  | .err :: _ => ([.start sid, .frameErr sid, .stop sid], s)

/-- Oracle outcome of one tick of the outer loop of `startup`:
resolution found no target, or it found one and `Capturer::build`
either succeeds (the inner loop then runs on `frames`) or fails. -/
inductive Tick where
  | noTarget
  | target (buildOk : Bool) (frames : List FrameResult)
deriving DecidableEq

/-- The outer loop of `startup`: each tick re-resolves the target;
with no target it just sleeps; with a target it builds a session
(fresh id) and runs `rust_capture`, then sleeps. A build failure hits
the `.unwrap()` and panics, which kills the spawned startup task: the
loop ends and the remaining ticks are never processed. -/
def startupLoop (sid : Nat) (s : AppState) : List Tick → List Ev × AppState
  | [] => ([], s)
  | .noTarget :: rest =>
    let t := startupLoop sid s rest
    (.resolve false :: .sleep :: t.1, t.2)
  | .target true frames :: rest =>
    let inner := rust_capture sid s frames
    let t := startupLoop (sid + 1) inner.2 rest
    (.resolve true :: .buildSession sid :: inner.1 ++ .sleep :: t.1, t.2)
  | .target false _ :: _ => ([.resolve true, .buildPanic sid], s)

/-- The precondition gate of `startup`: the loop is entered iff the
platform is supported and permission is either already granted or
granted on request. -/
def startupEntersLoop (is_supported has_permission request_ok : Bool) : Bool :=
  if !is_supported then false
  else if !has_permission then request_ok
  else true

/-- `startup` as a whole: the gate, then the loop. When a gate check
fails the function returns before the loop: no events, state
untouched. -/
def startup (is_supported has_permission request_ok : Bool)
    (s : AppState) (ticks : List Tick) : List Ev × AppState :=
  if startupEntersLoop is_supported has_permission request_ok then
    startupLoop 0 s ticks
  else
    ([], s)

/-- Session id of a `start` event. -/
def evStartSid : Ev → Option Nat
  | .start sid => some sid
  | _ => none

/-- Session id of a `buildSession` event. -/
def evBuildSid : Ev → Option Nat
  | .buildSession sid => some sid
  | _ => none

/-- Whether an event is a resolution attempt. -/
def isResolve : Ev → Bool
  | .resolve _ => true
  | _ => false

/-- Number of resolution attempts in a trace: one per tick the loop
actually processed. -/
def countResolves (tr : List Ev) : Nat := tr.countP isResolve

/-- Whether an event publishes a frame to the shared store. -/
def isPublish : Ev → Bool
  | .publish _ => true
  | _ => false

/-- Number of publications to the shared store in a trace. -/
def countPublish (tr : List Ev) : Nat := tr.countP isPublish

/-- Ticks on which `Capturer::build` fails. -/
def tickBuildFails : Tick → Bool
  | .target false _ => true
  | _ => false

/-- Bracketing automaton for start/stop/sleep discipline. State
`some none`: valid, no session running; `some (some sid)`: valid,
session `sid` started and not yet stopped; `none`: discipline already
violated (a nested start, a stop without a matching start, a stop of
the wrong session, or a sleep while a session runs). -/
def brStep : Option (Option Nat) → Ev → Option (Option Nat)
  | none, _ => none
  | some none, .start sid => some (some sid)
  | some (some _), .start _ => none
  | some (some j), .stop sid => if sid = j then some none else none
  | some none, .stop _ => none
  | some (some _), .sleep => none
  | some st, _ => some st

end Rustaid

namespace Rustaid

theorem bgraToRgb_length : ∀ src : List Nat, (bgraToRgb src).length = 3 * (src.length / 4)
  | c0 :: c1 :: c2 :: c3 :: rest => by
    have ih := bgraToRgb_length rest
    simp [bgraToRgb, ih]
    omega
  | [] => by simp [bgraToRgb]
  | [c0] => by simp [bgraToRgb]
  | [c0, c1] => by simp [bgraToRgb]
  | [c0, c1, c2] => by simp [bgraToRgb]

theorem bgraToRgb_get : ∀ (src : List Nat) (i j : Nat), j < 3 → 4 * i + 4 ≤ src.length →
    (bgraToRgb src)[3 * i + j]? = src[4 * i + j]?
  | c0 :: c1 :: c2 :: c3 :: rest, i, j, hj, hlen => by
    cases i with
    | zero =>
      interval_cases j <;> simp [bgraToRgb]
    | succ i =>
      have h4 : 4 * i + 4 ≤ rest.length := by
        simp at hlen; omega
      have ih := bgraToRgb_get rest i j hj h4
      have e1 : 3 * (i + 1) + j = 3 * i + j + 1 + 1 + 1 := by omega
      have e2 : 4 * (i + 1) + j = 4 * i + j + 1 + 1 + 1 + 1 := by omega
      rw [e1, e2]
      simpa [bgraToRgb] using ih
  | [], i, j, hj, hlen => by simp at hlen
  | [c0], i, j, hj, hlen => by simp at hlen
  | [c0, c1], i, j, hj, hlen => by simp at hlen
  | [c0, c1, c2], i, j, hj, hlen => by simp at hlen

end Rustaid

namespace Rustaid

/-- C1: for a source buffer of length 4n and matching dimensions, the
pixel conversion clears the destination and yields a buffer of length
3n whose bytes at 3i, 3i+1, 3i+2 are the source bytes at 4i, 4i+1,
4i+2, the fourth byte of each group being dropped; the result is
independent of the prior contents of the reused buffer. -/
theorem convert_spec (dst dst2 src : List Nat) (n : Nat) (h : src.length = 4 * n) :
    (convert dst src).length = 3 * n ∧
    (∀ i < n, ∀ j < 3, (convert dst src)[3 * i + j]? = src[4 * i + j]?) ∧
    convert dst src = convert dst2 src := by
  refine ⟨?_, ?_, rfl⟩
  · simp [convert, bgraToRgb_length, h]
  · intro i hi j hj
    exact bgraToRgb_get src i j hj (by omega)

/-- Witness for convert_spec at a concrete 8-byte buffer with two
distinct prior buffer contents. -/
theorem convert_spec_witness :
    (convert [9, 9] [1, 2, 3, 4, 5, 6, 7, 8]).length = 3 * 2 ∧
    (∀ i < 2, ∀ j < 3,
      (convert [9, 9] [1, 2, 3, 4, 5, 6, 7, 8])[3 * i + j]? =
        ([1, 2, 3, 4, 5, 6, 7, 8] : List Nat)[4 * i + j]?) ∧
    convert [9, 9] [1, 2, 3, 4, 5, 6, 7, 8] = convert [] [1, 2, 3, 4, 5, 6, 7, 8] :=
  convert_spec [9, 9] [] [1, 2, 3, 4, 5, 6, 7, 8] 2 (by decide)

/-- C10: the conversion is total on every source length: it processes
exactly the complete leading 4-byte groups, ignoring a trailing
partial group, so the output length is 3 * (len / 4) and each complete
group keeps its first three bytes. -/
theorem convert_total (dst src : List Nat) :
    (convert dst src).length = 3 * (src.length / 4) ∧
    (∀ i j, j < 3 → 4 * i + 4 ≤ src.length →
      (convert dst src)[3 * i + j]? = src[4 * i + j]?) :=
  ⟨bgraToRgb_length src, fun i j hj hlen => bgraToRgb_get src i j hj hlen⟩

/-- Witness for convert_total at a 5-byte buffer (one complete group,
one trailing byte ignored). -/
theorem convert_total_witness :
    (convert [] [1, 2, 3, 4, 5]).length = 3 * (([1, 2, 3, 4, 5] : List Nat).length / 4) ∧
    (convert [] [1, 2, 3, 4, 5])[3 * 0 + 1]? = ([1, 2, 3, 4, 5] : List Nat)[4 * 0 + 1]? :=
  ⟨(convert_total [] [1, 2, 3, 4, 5]).1,
    (convert_total [] [1, 2, 3, 4, 5]).2 0 1 (by decide) (by decide)⟩

end Rustaid

namespace Rustaid

theorem b64Index_b64Char_fin : ∀ k : Fin 64, b64Index (b64Char k.val) = some k.val := by
  decide

theorem b64Index_b64Char (k : Nat) (hk : k < 64) : b64Index (b64Char k) = some k :=
  b64Index_b64Char_fin ⟨k, hk⟩

end Rustaid

namespace Rustaid

theorem base64_decode_encode : ∀ l : List Nat, (∀ b ∈ l, b < 256) →
    base64Decode (base64Encode l) = some l
  | [], _ => rfl
  | [b0], h => by
    have hb0 : b0 < 256 := h b0 (by simp)
    simp only [base64Encode, base64Decode,
      b64Index_b64Char (b0 / 4) (by omega),
      b64Index_b64Char (b0 % 4 * 16) (by omega)]
    simp only [Option.bind_eq_bind, Option.some_bind, Option.pure_def,
      Option.some.injEq, List.cons.injEq, and_true]
    omega
  | [b0, b1], h => by
    have hb0 : b0 < 256 := h b0 (by simp)
    have hb1 : b1 < 256 := h b1 (by simp)
    simp only [base64Encode, base64Decode,
      b64Index_b64Char (b0 / 4) (by omega),
      b64Index_b64Char (b0 % 4 * 16 + b1 / 16) (by omega),
      b64Index_b64Char (b1 % 16 * 4) (by omega)]
    simp only [Option.bind_eq_bind, Option.some_bind, Option.pure_def,
      Option.some.injEq, List.cons.injEq, and_true]
    constructor
    · omega
    · omega
  | b0 :: b1 :: b2 :: rest, h => by
    have hb0 : b0 < 256 := h b0 (by simp)
    have hb1 : b1 < 256 := h b1 (by simp)
    have hb2 : b2 < 256 := h b2 (by simp)
    have hrest : ∀ b ∈ rest, b < 256 := fun b hb => h b (by simp [hb])
    have ih := base64_decode_encode rest hrest
    have hd : base64Decode (base64Encode (b0 :: b1 :: b2 :: rest)) =
        (b64Index (b64Char (b0 / 4))).bind fun i0 =>
        (b64Index (b64Char (b0 % 4 * 16 + b1 / 16))).bind fun i1 =>
        (b64Index (b64Char (b1 % 16 * 4 + b2 / 64))).bind fun i2 =>
        (b64Index (b64Char (b2 % 64))).bind fun i3 =>
        (base64Decode (base64Encode rest)).bind fun tail =>
        some ((i0 * 4 + i1 / 16) :: (i1 % 16 * 16 + i2 / 4) :: (i2 % 4 * 64 + i3) :: tail) := by
      rw [base64Encode]
      cases hr : base64Encode rest with
      | nil => simp [base64Decode, hr, Option.bind_eq_bind]
      | cons c cs => simp [base64Decode, hr, Option.bind_eq_bind]
    rw [hd, b64Index_b64Char (b0 / 4) (by omega),
      b64Index_b64Char (b0 % 4 * 16 + b1 / 16) (by omega),
      b64Index_b64Char (b1 % 16 * 4 + b2 / 64) (by omega),
      b64Index_b64Char (b2 % 64) (by omega), ih]
    simp only [Option.some_bind, Option.some.injEq, List.cons.injEq, and_true]
    omega

end Rustaid

namespace Rustaid

theorem b64Char_mem (k : Nat) : b64Char k ∈ b64Alphabet := by
  by_cases hk : k < b64Alphabet.length
  · rw [b64Char, List.getD_eq_getElem _ _ hk]
    exact List.getElem_mem hk
  · rw [b64Char, List.getD_eq_default _ _ (by omega)]
    decide

theorem base64Encode_mem : ∀ (l : List Nat) (c : Char), c ∈ base64Encode l → c ∈ b64Alphabet
  | [], c, hc => by simp [base64Encode] at hc
  | [b0], c, hc => by
    simp only [base64Encode, List.mem_cons, List.not_mem_nil, or_false] at hc
    rcases hc with h | h <;> exact h ▸ b64Char_mem _
  | [b0, b1], c, hc => by
    simp only [base64Encode, List.mem_cons, List.not_mem_nil, or_false] at hc
    rcases hc with h | h | h <;> exact h ▸ b64Char_mem _
  | b0 :: b1 :: b2 :: rest, c, hc => by
    simp only [base64Encode, List.mem_cons] at hc
    rcases hc with h | h | h | h | h
    · exact h ▸ b64Char_mem _
    · exact h ▸ b64Char_mem _
    · exact h ▸ b64Char_mem _
    · exact h ▸ b64Char_mem _
    · exact base64Encode_mem rest c h

/-- C8: the text encoding is the unpadded standard-alphabet base64 of
the image bytes: every output character belongs to the standard
alphabet, the padding character is not in that alphabet, and decoding
the encoding reproduces the byte sequence exactly, for every byte
sequence. -/
theorem base64_roundtrip (l : List Nat) (h : ∀ b ∈ l, b < 256) :
    base64Decode (base64Encode l) = some l ∧
    (∀ c ∈ base64Encode l, c ∈ b64Alphabet) ∧
    '=' ∉ b64Alphabet :=
  ⟨base64_decode_encode l h, fun c hc => base64Encode_mem l c hc, by decide⟩

/-- Witness for base64_roundtrip at the concrete byte sequence
[0, 100, 255, 7]. -/
theorem base64_roundtrip_witness :
    base64Decode (base64Encode [0, 100, 255, 7]) = some [0, 100, 255, 7] ∧
    (∀ c ∈ base64Encode [0, 100, 255, 7], c ∈ b64Alphabet) ∧
    '=' ∉ b64Alphabet :=
  base64_roundtrip [0, 100, 255, 7] (by decide)

end Rustaid

namespace Rustaid

theorem find?_first (p : Target → Bool) : ∀ (ts : List Target),
    (∀ t, ts.find? p = some t →
      p t = true ∧ ∃ i : Nat, ts[i]? = some t ∧
        ∀ j < i, ∀ u, ts[j]? = some u → p u = false) ∧
    (ts.find? p = none ↔ ∀ t ∈ ts, p t = false)
  | [] => by
    constructor
    · intro t ht
      simp [List.find?] at ht
    · simp [List.find?]
  | a :: ts => by
    have ih := find?_first p ts
    constructor
    · intro t ht
      cases hpa : p a with
      | true =>
        rw [List.find?_cons_of_pos _ hpa] at ht
        obtain rfl : a = t := by injection ht
        refine ⟨hpa, 0, by simp, by omega⟩
      | false =>
        rw [List.find?_cons_of_neg _ (by simp [hpa])] at ht
        obtain ⟨hpt, i, hi, hmin⟩ := ih.1 t ht
        refine ⟨hpt, i + 1, by simpa using hi, ?_⟩
        intro j hj u hu
        cases j with
        | zero =>
          simp at hu
          exact hu ▸ hpa
        | succ j =>
          simp at hu
          exact hmin j (by omega) u hu
    · cases hpa : p a with
      | true =>
        rw [List.find?_cons_of_pos _ hpa]
        simp only [reduceCtorEq, false_iff]
        intro hall
        exact absurd (hall a (by simp)) (by simp [hpa])
      | false =>
        rw [List.find?_cons_of_neg _ (by simp [hpa])]
        rw [ih.2]
        constructor
        · intro hall t ht
          rcases List.mem_cons.mp ht with rfl | ht
          · exact hpa
          · exact hall t ht
        · intro hall t ht
          exact hall t (by simp [ht])

/-- C9: target resolution returns the first enumerated target that is
a window titled exactly "Rust", and none exactly when no enumerated
target qualifies; it is a pure function of the enumeration. -/
theorem get_rust_target_spec (ts : List Target) :
    (∀ t, get_rust_target ts = some t →
      isRustWindow t = true ∧ ∃ i : Nat, ts[i]? = some t ∧
        ∀ j < i, ∀ u, ts[j]? = some u → isRustWindow u = false) ∧
    (get_rust_target ts = none ↔ ∀ t ∈ ts, isRustWindow t = false) :=
  find?_first isRustWindow ts

/-- Witness for get_rust_target_spec: on an enumeration holding a
display, a window with another title and the "Rust" window, the third
entry is selected and the two earlier entries do not match. -/
theorem get_rust_target_spec_witness :
    isRustWindow (Target.window ⟨"Rust"⟩) = true ∧
    ∃ i : Nat, ([Target.display 0, Target.window ⟨"Other"⟩,
            Target.window ⟨"Rust"⟩] : List Target)[i]? = some (Target.window ⟨"Rust"⟩) ∧
      ∀ j < i, ∀ u, ([Target.display 0, Target.window ⟨"Other"⟩,
            Target.window ⟨"Rust"⟩] : List Target)[j]? = some u → isRustWindow u = false :=
  (get_rust_target_spec [Target.display 0, Target.window ⟨"Other"⟩,
      Target.window ⟨"Rust"⟩]).1 (Target.window ⟨"Rust"⟩) (by decide)

end Rustaid

namespace Rustaid

theorem handleFrame_events (f : Frame) (s : AppState) :
    (handleFrame f s).1 = [] ∨ (∃ d, (handleFrame f s).1 = [Ev.publish d]) ∨
      (handleFrame f s).1 = [Ev.encodePanic] := by
  cases f with
  | BGRA data w h =>
    cases henc : frame_to_base64 [] data w h with
    | some img => exact Or.inr (Or.inl ⟨img, by simp [handleFrame, henc]⟩)
    | none => exact Or.inr (Or.inr (by simp [handleFrame, henc]))
  | other => exact Or.inl (by simp [handleFrame])

theorem handleFrame_window (f : Frame) (s : AppState) :
    ((handleFrame f s).2).window = s.window := by
  cases f with
  | BGRA data w h =>
    cases henc : frame_to_base64 [] data w h with
    | some img => simp [handleFrame, henc]
    | none => simp [handleFrame, henc]
  | other => simp [handleFrame]

theorem rust_capture_window : ∀ (sid : Nat) (s : AppState) (frames : List FrameResult),
    ((rust_capture sid s frames).2).window = s.window
  | _, _, [] => rfl
  | sid, s, .ok f :: rest => by
    have ih := rust_capture_window sid (handleFrame f s).2 rest
    simpa [rust_capture, handleFrame_window f s] using ih
  | _, _, .err :: _ => rfl

theorem startupLoop_window : ∀ (sid : Nat) (s : AppState) (ticks : List Tick),
    ((startupLoop sid s ticks).2).window = s.window
  | _, _, [] => rfl
  | sid, s, .noTarget :: rest => by
    simpa [startupLoop] using startupLoop_window sid s rest
  | sid, s, .target true frames :: rest => by
    have ih := startupLoop_window (sid + 1) (rust_capture sid s frames).2 rest
    simpa [startupLoop, rust_capture_window sid s frames] using ih
  | _, _, .target false _ :: _ => rfl

theorem brStep_publish (st : Option (Option Nat)) (d : List Char) :
    brStep st (.publish d) = st := by
  cases st with
  | none => rfl
  | some o => cases o <;> rfl

theorem brStep_encodePanic (st : Option (Option Nat)) : brStep st .encodePanic = st := by
  cases st with
  | none => rfl
  | some o => cases o <;> rfl

theorem brStep_resolve (st : Option (Option Nat)) (b : Bool) :
    brStep st (.resolve b) = st := by
  cases st with
  | none => rfl
  | some o => cases o <;> rfl

theorem brStep_buildSession (st : Option (Option Nat)) (sid : Nat) :
    brStep st (.buildSession sid) = st := by
  cases st with
  | none => rfl
  | some o => cases o <;> rfl

theorem brStep_buildPanic (st : Option (Option Nat)) (sid : Nat) :
    brStep st (.buildPanic sid) = st := by
  cases st with
  | none => rfl
  | some o => cases o <;> rfl

theorem brStep_frameOk (st : Option (Option Nat)) (sid : Nat) :
    brStep st (.frameOk sid) = st := by
  cases st with
  | none => rfl
  | some o => cases o <;> rfl

theorem brStep_frameErr (st : Option (Option Nat)) (sid : Nat) :
    brStep st (.frameErr sid) = st := by
  cases st with
  | none => rfl
  | some o => cases o <;> rfl

theorem foldl_brStep_handleFrame (f : Frame) (s : AppState) (st : Option (Option Nat)) :
    List.foldl brStep st (handleFrame f s).1 = st := by
  rcases handleFrame_events f s with h | ⟨d, h⟩ | h <;>
    simp [h, brStep_publish, brStep_encodePanic]

theorem rust_capture_brStep : ∀ (sid : Nat) (s : AppState) (frames : List FrameResult),
    List.foldl brStep (some none) (rust_capture sid s frames).1 = some none
  | _, _, [] => rfl
  | sid, s, .ok f :: rest => by
    have ih := rust_capture_brStep sid (handleFrame f s).2 rest
    simp only [rust_capture, List.foldl_cons, List.foldl_append]
    have h1 : brStep (some none) (Ev.start sid) = some (some sid) := rfl
    have h2 : brStep (some (some sid)) (Ev.frameOk sid) = some (some sid) := rfl
    have h3 : brStep (some (some sid)) (Ev.stop sid) = some none := by
      simp [brStep]
    rw [h1, h2, foldl_brStep_handleFrame, h3]
    exact ih
  | sid, s, .err :: _ => by
    simp only [rust_capture, List.foldl_cons]
    have h1 : brStep (some none) (Ev.start sid) = some (some sid) := rfl
    have h2 : brStep (some (some sid)) (Ev.frameErr sid) = some (some sid) := rfl
    have h3 : brStep (some (some sid)) (Ev.stop sid) = some none := by
      simp [brStep]
    rw [h1, h2, h3]
    rfl

theorem startupLoop_brStep : ∀ (sid : Nat) (s : AppState) (ticks : List Tick),
    List.foldl brStep (some none) (startupLoop sid s ticks).1 = some none
  | _, _, [] => rfl
  | sid, s, .noTarget :: rest => by
    simpa [startupLoop, brStep_resolve] using startupLoop_brStep sid s rest
  | sid, s, .target true frames :: rest => by
    have ihi := rust_capture_brStep sid s frames
    have iht := startupLoop_brStep (sid + 1) (rust_capture sid s frames).2 rest
    simp only [startupLoop, List.foldl_cons, List.foldl_append,
      brStep_resolve, brStep_buildSession]
    rw [ihi]
    exact iht
  | sid, s, .target false _ :: _ => by
    simp [startupLoop, brStep_resolve, brStep_buildPanic]

end Rustaid

namespace Rustaid

theorem handleFrame_no_start (f : Frame) (s : AppState) :
    (handleFrame f s).1.filterMap evStartSid = [] := by
  rcases handleFrame_events f s with h | ⟨d, h⟩ | h <;> simp [h, evStartSid]

theorem handleFrame_no_build (f : Frame) (s : AppState) :
    (handleFrame f s).1.filterMap evBuildSid = [] := by
  rcases handleFrame_events f s with h | ⟨d, h⟩ | h <;> simp [h, evBuildSid]

theorem handleFrame_no_resolve (f : Frame) (s : AppState) :
    countResolves (handleFrame f s).1 = 0 := by
  rcases handleFrame_events f s with h | ⟨d, h⟩ | h <;> simp [h, countResolves, isResolve]

theorem rust_capture_startSids : ∀ (sid : Nat) (s : AppState) (frames : List FrameResult),
    ∀ i ∈ (rust_capture sid s frames).1.filterMap evStartSid, i = sid
  | _, _, [], i, hi => by simp [rust_capture] at hi
  | sid, s, .ok f :: rest, i, hi => by
    have ih := rust_capture_startSids sid (handleFrame f s).2 rest
    simp only [rust_capture, List.filterMap_cons, List.filterMap_append,
      handleFrame_no_start, evStartSid] at hi
    simp only [List.nil_append, List.mem_cons, List.mem_append,
      List.not_mem_nil, List.mem_filterMap] at hi
    rcases hi with hi | hi
    · simpa using hi
    · exact ih i (List.mem_filterMap.mpr hi)
  | sid, s, .err :: _, i, hi => by
    simp [rust_capture, List.filterMap_cons, evStartSid] at hi
    exact hi

theorem rust_capture_no_build : ∀ (sid : Nat) (s : AppState) (frames : List FrameResult),
    (rust_capture sid s frames).1.filterMap evBuildSid = []
  | _, _, [] => rfl
  | sid, s, .ok f :: rest => by
    have ih := rust_capture_no_build sid (handleFrame f s).2 rest
    simp [rust_capture, List.filterMap_cons, List.filterMap_append,
      handleFrame_no_build, evBuildSid, ih]
  | sid, s, .err :: _ => by
    simp [rust_capture, List.filterMap_cons, evBuildSid]

theorem rust_capture_no_resolve : ∀ (sid : Nat) (s : AppState) (frames : List FrameResult),
    countResolves (rust_capture sid s frames).1 = 0
  | _, _, [] => rfl
  | sid, s, .ok f :: rest => by
    have ih := rust_capture_no_resolve sid (handleFrame f s).2 rest
    have hh := handleFrame_no_resolve f s
    simp only [countResolves] at ih hh ⊢
    simp [rust_capture, List.countP_cons, List.countP_append, isResolve, ih, hh]
  | sid, s, .err :: _ => by
    simp [countResolves, rust_capture, List.countP_cons, isResolve]

theorem startupLoop_buildSids_ge : ∀ (sid : Nat) (s : AppState) (ticks : List Tick),
    ∀ x ∈ (startupLoop sid s ticks).1.filterMap evBuildSid, sid ≤ x
  | _, _, [], x, hx => by simp [startupLoop] at hx
  | sid, s, .noTarget :: rest, x, hx => by
    have ih := startupLoop_buildSids_ge sid s rest
    simp only [startupLoop, List.filterMap_cons, evBuildSid] at hx
    exact ih x hx
  | sid, s, .target true frames :: rest, x, hx => by
    have ih := startupLoop_buildSids_ge (sid + 1) (rust_capture sid s frames).2 rest
    simp only [startupLoop, List.filterMap_cons, List.filterMap_append,
      rust_capture_no_build, evBuildSid, List.nil_append] at hx
    rcases List.mem_cons.mp hx with h | hx
    · exact Nat.le_of_eq h.symm
    · exact Nat.le_of_succ_le (ih x hx)
  | sid, s, .target false _ :: _, x, hx => by
    simp [startupLoop, List.filterMap_cons, evBuildSid] at hx

theorem startupLoop_buildSids_pairwise : ∀ (sid : Nat) (s : AppState) (ticks : List Tick),
    ((startupLoop sid s ticks).1.filterMap evBuildSid).Pairwise (· < ·)
  | _, _, [] => List.Pairwise.nil
  | sid, s, .noTarget :: rest => by
    have ih := startupLoop_buildSids_pairwise sid s rest
    simpa [startupLoop, List.filterMap_cons, evBuildSid] using ih
  | sid, s, .target true frames :: rest => by
    have ih := startupLoop_buildSids_pairwise (sid + 1) (rust_capture sid s frames).2 rest
    have hge := startupLoop_buildSids_ge (sid + 1) (rust_capture sid s frames).2 rest
    simp only [startupLoop, List.filterMap_cons, List.filterMap_append,
      rust_capture_no_build, evBuildSid, List.nil_append]
    exact List.Pairwise.cons (fun x hx => Nat.lt_of_succ_le (hge x hx)) ih
  | sid, s, .target false _ :: _ => by
    simp [startupLoop, List.filterMap_cons, evBuildSid]

theorem startupLoop_countResolves : ∀ (sid : Nat) (s : AppState) (ticks : List Tick),
    (∀ t ∈ ticks, tickBuildFails t = false) →
    countResolves (startupLoop sid s ticks).1 = ticks.length
  | _, _, [], _ => rfl
  | sid, s, .noTarget :: rest, h => by
    have ih := startupLoop_countResolves sid s rest (fun t ht => h t (by simp [ht]))
    simp only [countResolves] at ih ⊢
    simp [startupLoop, List.countP_cons, isResolve, ih]
  | sid, s, .target true frames :: rest, h => by
    have ih := startupLoop_countResolves (sid + 1) (rust_capture sid s frames).2 rest
      (fun t ht => h t (by simp [ht]))
    have hz := rust_capture_no_resolve sid s frames
    simp only [countResolves] at ih hz ⊢
    simp [startupLoop, List.countP_cons, List.countP_append, isResolve, ih, hz]
  | sid, s, .target false frames :: rest, h => by
    have := h (.target false frames) (by simp)
    simp [tickBuildFails] at this

end Rustaid

namespace Rustaid

theorem handleFrame_lastFrame (f : Frame) (s : AppState) :
    ((handleFrame f s).2.lastFrame = none ↔
      s.lastFrame = none ∧ countPublish (handleFrame f s).1 = 0) := by
  cases f with
  | BGRA data w h =>
    cases henc : frame_to_base64 [] data w h with
    | some img => simp [handleFrame, henc, countPublish, isPublish]
    | none => simp [handleFrame, henc, countPublish, isPublish]
  | other => simp [handleFrame, countPublish]

theorem rust_capture_lastFrame : ∀ (sid : Nat) (s : AppState) (frames : List FrameResult),
    ((rust_capture sid s frames).2.lastFrame = none ↔
      s.lastFrame = none ∧ countPublish (rust_capture sid s frames).1 = 0)
  | _, _, [] => by simp [rust_capture, countPublish]
  | sid, s, .ok f :: rest => by
    have ih := rust_capture_lastFrame sid (handleFrame f s).2 rest
    have hh := handleFrame_lastFrame f s
    simp only [countPublish] at ih hh ⊢
    simp [rust_capture, List.countP_cons, List.countP_append, isPublish,
      Nat.add_eq_zero, ih, hh]
    tauto
  | sid, s, .err :: _ => by
    simp [rust_capture, countPublish, List.countP_cons, isPublish]

theorem startupLoop_lastFrame : ∀ (sid : Nat) (s : AppState) (ticks : List Tick),
    ((startupLoop sid s ticks).2.lastFrame = none ↔
      s.lastFrame = none ∧ countPublish (startupLoop sid s ticks).1 = 0)
  | _, _, [] => by simp [startupLoop, countPublish]
  | sid, s, .noTarget :: rest => by
    have ih := startupLoop_lastFrame sid s rest
    simp only [countPublish] at ih ⊢
    simp [startupLoop, List.countP_cons, isPublish, Nat.add_eq_zero, ih]
  | sid, s, .target true frames :: rest => by
    have ih := startupLoop_lastFrame (sid + 1) (rust_capture sid s frames).2 rest
    have hc := rust_capture_lastFrame sid s frames
    simp only [countPublish] at ih hc ⊢
    simp [startupLoop, List.countP_cons, List.countP_append, isPublish,
      Nat.add_eq_zero, ih, hc]
    tauto
  | sid, s, .target false _ :: _ => by
    simp [startupLoop, countPublish, List.countP_cons, isPublish]

end Rustaid

namespace Rustaid

/-- C2 counterexample: a single tick whose session delivers two
successful frames runs two consecutive capture cycles (two start
events, both with session id 0) over a single session build and a
single target resolution: the session and its target binding are
reused across consecutive capture cycles. -/
theorem session_freshness_counterexample :
    ((startupLoop 0 initialState
        [Tick.target true [FrameResult.ok (Frame.BGRA [1, 2, 3, 4] 1 1),
          FrameResult.ok (Frame.BGRA [1, 2, 3, 4] 1 1)]]).1.filterMap evStartSid
      = [0, 0]) ∧
    ((startupLoop 0 initialState
        [Tick.target true [FrameResult.ok (Frame.BGRA [1, 2, 3, 4] 1 1),
          FrameResult.ok (Frame.BGRA [1, 2, 3, 4] 1 1)]]).1.filterMap evBuildSid
      = [0]) ∧
    countResolves (startupLoop 0 initialState
        [Tick.target true [FrameResult.ok (Frame.BGRA [1, 2, 3, 4] 1 1),
          FrameResult.ok (Frame.BGRA [1, 2, 3, 4] 1 1)]]).1 = 1 := by
  decide

/-- C2 corrected: within one `rust_capture` call every capture cycle
reuses the same session (all start events carry that call's session
id), while the outer loop builds a fresh session for each call (the
session ids of successive builds are strictly increasing, so no
session object survives a return to target resolution). -/
theorem session_reuse_spec (sid : Nat) (s : AppState) (frames : List FrameResult)
    (ticks : List Tick) :
    (∀ i ∈ (rust_capture sid s frames).1.filterMap evStartSid, i = sid) ∧
    ((startupLoop sid s ticks).1.filterMap evBuildSid).Pairwise (· < ·) :=
  ⟨rust_capture_startSids sid s frames, startupLoop_buildSids_pairwise sid s ticks⟩

/-- Witness for session_reuse_spec on a concrete script: one session
with an error cycle, then two ticks. -/
theorem session_reuse_spec_witness :
    (∀ i ∈ (rust_capture 5 initialState [FrameResult.err]).1.filterMap evStartSid, i = 5) ∧
    ((startupLoop 5 initialState
        [Tick.target true [FrameResult.err], Tick.target true []]).1.filterMap
      evBuildSid).Pairwise (· < ·) :=
  ⟨(session_reuse_spec 5 initialState [FrameResult.err] []).1,
    (session_reuse_spec 5 initialState [FrameResult.err]
      [Tick.target true [FrameResult.err], Tick.target true []]).2⟩

/-- C3 counterexample: a session build failure hits the `.unwrap()`
panic: the trace stops at the panic and the following tick is never
resolved, so this per-cycle failure does terminate the capture loop. -/
theorem build_failure_counterexample :
    (startupLoop 0 initialState [Tick.target false [], Tick.noTarget]).1 =
      [Ev.resolve true, Ev.buildPanic 0] ∧
    countResolves (startupLoop 0 initialState
      [Tick.target false [], Tick.noTarget]).1 = 1 := by
  decide

/-- C3 corrected: frame-fetch failures and frame-encode failures are
contained (every scheduled tick still performs its resolution), but a
session build failure panics and ends the loop; the startup gate
checks are the other way execution stops, by never entering the loop
(`startup` with a failing gate emits no events and leaves the state
untouched). -/
theorem failure_containment (sid : Nat) (s : AppState) (ticks : List Tick)
    (h : ∀ t ∈ ticks, tickBuildFails t = false) :
    countResolves (startupLoop sid s ticks).1 = ticks.length ∧
    (∀ (sup p r : Bool) (s2 : AppState) (ticks2 : List Tick),
      startupEntersLoop sup p r = false → startup sup p r s2 ticks2 = ([], s2)) := by
  refine ⟨startupLoop_countResolves sid s ticks h, ?_⟩
  intro sup p r s2 ticks2 hg
  simp [startup, hg]

/-- Witness for failure_containment: three ticks containing a frame
error and an encode panic are all resolved, and a denied permission
gate never enters the loop. -/
theorem failure_containment_witness :
    (countResolves (startupLoop 0 initialState
      [Tick.noTarget, Tick.target true [FrameResult.err],
        Tick.target true [FrameResult.ok (Frame.BGRA [] 5 5)]]).1 = 3) ∧
    startup true false false initialState [Tick.noTarget] = ([], initialState) := by
  have hs := failure_containment 0 initialState
    [Tick.noTarget, Tick.target true [FrameResult.err],
      Tick.target true [FrameResult.ok (Frame.BGRA [] 5 5)]] (by decide)
  exact ⟨hs.1, hs.2 true false false initialState [Tick.noTarget] (by decide)⟩

/-- C4: every run of the capture loop keeps the start/stop bracketing
discipline: the automaton that tracks the running session accepts the
whole trace, ending with no session open — every start is followed by
exactly one stop of the same session before any further start or any
sleep, stop is never invoked without a running session, and no sleep
happens with a session left running. -/
theorem session_bracketing (sid : Nat) (s : AppState) (ticks : List Tick) :
    List.foldl brStep (some none) (startupLoop sid s ticks).1 = some none :=
  startupLoop_brStep sid s ticks

/-- C5 counterexample: a pixel buffer of 6 bytes with 1x1 dimensions
has length different from width*height*3 = 3, yet the encoder accepts
it (the from_raw check only rejects buffers that are too small), and a
BGRA frame whose converted buffer is 6 bytes is published rather than
dropped. -/
theorem format_error_counterexample :
    ([0, 0, 0, 0, 0, 0] : List Nat).length ≠ 1 * 1 * 3 ∧
    rgbImageFromRaw 1 1 [0, 0, 0, 0, 0, 0] = some [0, 0, 0] ∧
    (handleFrame (Frame.BGRA [0, 0, 0, 0, 0, 0, 0, 0] 1 1) initialState).2.lastFrame ≠
      none := by
  decide

/-- C5 corrected: the encoder fails exactly when the converted pixel
buffer is shorter than width*height*3 (a longer buffer is accepted
with the excess ignored), and the failure is the `.unwrap()` panic —
no FormatError value is returned; the panic kills only the spawned
encode task, so that frame is dropped with the store unchanged and the
loop continues with the remaining cycles. -/
theorem encoder_failure_spec (w h sid : Nat) (data : List Nat) (s : AppState)
    (rest : List FrameResult) :
    (frame_to_base64 [] data w h = none ↔ (convert [] data).length < w * h * 3) ∧
    (frame_to_base64 [] data w h = none →
      rust_capture sid s (FrameResult.ok (Frame.BGRA data w h) :: rest) =
        (Ev.start sid :: Ev.frameOk sid :: Ev.encodePanic :: Ev.stop sid ::
          Ev.sleep :: (rust_capture sid s rest).1, (rust_capture sid s rest).2)) := by
  constructor
  · by_cases hle : w * h * 3 ≤ (convert [] data).length
    · simp [frame_to_base64, rgbImageFromRaw, hle]
    · simp [frame_to_base64, rgbImageFromRaw, hle]
      omega
  · intro hnone
    simp [rust_capture, handleFrame, hnone]

/-- Witness for encoder_failure_spec: a one-byte BGRA payload converts
to an empty buffer, the encode panics, and the cycle leaves the
initial state unchanged. -/
theorem encoder_failure_spec_witness :
    (frame_to_base64 [] [0] 1 1 = none ↔ (convert [] [0]).length < 1 * 1 * 3) ∧
    rust_capture 0 initialState [FrameResult.ok (Frame.BGRA [0] 1 1)] =
      ([Ev.start 0, Ev.frameOk 0, Ev.encodePanic, Ev.stop 0, Ev.sleep], initialState) := by
  have hs := encoder_failure_spec 1 1 0 [0] initialState []
  exact ⟨hs.1, by simpa using hs.2 (by decide)⟩

/-- C6 counterexample: after one successful capture of the tracked
window (a frame is published, so a target was being tracked),
get_window still returns the empty string, not the tracked target
label "Rust". -/
theorem window_label_counterexample :
    get_window ((startupLoop 0 initialState
      [Tick.target true [FrameResult.ok (Frame.BGRA [1, 2, 3, 4] 1 1)]]).2) =
        Except.ok "" ∧
    ((startupLoop 0 initialState
      [Tick.target true [FrameResult.ok (Frame.BGRA [1, 2, 3, 4] 1 1)]]).2).lastFrame ≠
      none ∧
    ("" : String) ≠ "Rust" := by
  decide

/-- C6 corrected: get_window never fails — it always returns Ok of the
stored label — but no code path of the capture pipeline ever writes
that label, so it stays at its initial value (the empty string) no
matter what the loop does, even while a target is tracked. -/
theorem get_window_spec (sid : Nat) (s : AppState) (ticks : List Tick) :
    (∀ st : AppState, get_window st = Except.ok st.window) ∧
    ((startupLoop sid s ticks).2).window = s.window :=
  ⟨fun _ => rfl, startupLoop_window sid s ticks⟩

/-- C7 counterexample: on the empty store the error returned by
get_frame is the string "No frame captured yet", which is not the
string "no frame captured yet" stated by the claim. -/
theorem frame_message_counterexample :
    get_frame initialState = Except.error "No frame captured yet" ∧
    get_frame initialState ≠ Except.error "no frame captured yet" := by
  decide

/-- C7 corrected: get_frame returns the stored frame when one has been
published and the NotAvailable error (message "No frame captured yet",
capitalized) exactly when the loop, started from the initial state,
has published no frame yet. -/
theorem get_frame_spec (sid : Nat) (ticks : List Tick) :
    (∀ d, ((startupLoop sid initialState ticks).2).lastFrame = some d →
      get_frame ((startupLoop sid initialState ticks).2) = Except.ok d) ∧
    (get_frame ((startupLoop sid initialState ticks).2) =
        Except.error "No frame captured yet" ↔
      ((startupLoop sid initialState ticks).2).lastFrame = none) ∧
    (((startupLoop sid initialState ticks).2).lastFrame = none ↔
      countPublish (startupLoop sid initialState ticks).1 = 0) := by
  refine ⟨?_, ?_, ?_⟩
  · intro d hd
    simp [get_frame, hd]
  · cases hl : ((startupLoop sid initialState ticks).2).lastFrame <;>
      simp [get_frame, hl]
  · simpa [initialState] using startupLoop_lastFrame sid initialState ticks

/-- Witness for get_frame_spec: after one successful cycle the query
returns exactly the published encoding. -/
theorem get_frame_spec_witness :
    get_frame ((startupLoop 0 initialState
      [Tick.target true [FrameResult.ok (Frame.BGRA [1, 2, 3, 4] 1 1)]]).2) =
      Except.ok (base64Encode (pngBytes 1 1 [1, 2, 3])) :=
  (get_frame_spec 0 [Tick.target true [FrameResult.ok (Frame.BGRA [1, 2, 3, 4] 1 1)]]).1
    (base64Encode (pngBytes 1 1 [1, 2, 3])) (by decide)

end Rustaid
